import Mathlib

/-!
Shallow embedding of the annotation / detection / packaging core of the
agentvision_app repository (src/app.py and src/app_try.py), together with
theorems settling the frozen claims about its specification.

Modelling conventions:
* Python floats are modelled as rationals (ℚ); `int(x)` is truncation
  toward zero (`pyInt`).
* A Python detection dict is a structure of `Option` fields; `d.get(k, v)`
  is `Option.getD`.
* Side effects of PIL drawing are modelled by an explicit list of draw
  operations accumulated on an `Annotated` value; re-encoding to JPEG is
  the final `Annotated` value itself (source bytes + conversion flag + ops).
* Fallible Python code (tuple unpacking, `min` of an empty sequence,
  `raise_for_status`) is modelled with `Except String`.
* The network call `requests.post` / `call_agentic_object_detection_api`
  is an oracle parameter `api`; the list of prompts actually sent over the
  network is returned as an explicit call trace.
-/

/-- Python `int(q)` on a rational: truncation toward zero. -/
def pyInt (q : ℚ) : ℤ := if 0 ≤ q then ⌊q⌋ else ⌈q⌉

/-- Python truthiness test for an optional string argument:
`None` and the empty string are falsy. -/
def pyFalsy : Option String → Bool
  | none => true
  | some s => s.isEmpty

/-- One detection dict as returned by the remote API: any of the keys
`label`, `score`, `bounding_box` may be absent. -/
structure Detection where
  label : Option String
  score : Option ℚ
  bounding_box : Option (List ℚ)
  deriving DecidableEq, Repr

/-- `det.get("label", "N/A")` (src/app.py line 210, src/app_try.py line 162). -/
def labelOf (d : Detection) : String := d.label.getD "N/A"

/-- `det.get("score", 0.0)` (src/app.py line 211) /
`det.get("score", 0)` (src/app_try.py line 162). -/
def scoreOf (d : Detection) : ℚ := d.score.getD 0

/-- `det.get("bounding_box", [])` (src/app.py line 212, src/app_try.py line 163). -/
def boxOf (d : Detection) : List ℚ := d.bounding_box.getD []

/-- Python dict `.get(k, dflt)` over an assoc list built by a dict
comprehension: on duplicate keys the later binding wins. -/
def dictGet {α : Type} (l : List (String × α)) (k : String) (dflt : α) : α :=
  match l.reverse.find? (fun p => p.1 == k) with
  | some p => p.2
  | none => dflt

/-- RGB triple as computed by the Python code (`int` results). -/
abbrev RGB := ℤ × ℤ × ℤ

/-- One drawing action: the rectangle outline plus the text label drawn for
a single detection (`draw.rectangle` + `draw.text`), recording the data the
calls receive. -/
structure DrawOp where
  box : List ℚ
  color : RGB
  label : String
  score : ℚ
  deriving DecidableEq, Repr

/-- The annotated image handed back by `draw_bounding_boxes`: the decoded
source bytes, whether `.convert("RGB")` was applied, and the list of draw
operations performed before the JPEG re-encode. -/
structure Annotated where
  sourceBytes : List ℕ
  convertedRGB : Bool
  ops : List DrawOp
  deriving DecidableEq, Repr

namespace App

/-- The per-detection body of the loop of `draw_bounding_boxes`
(src/app.py lines 209-225): `none` when the `continue` of line 214 fires
(box not of length 4), otherwise the rectangle/text draw with color
`base * score` truncated channel-wise. -/
def opOf (prompt_colors : List (String × RGB)) (det : Detection) : Option DrawOp :=
  let label := labelOf det
  let score := scoreOf det
  let box := boxOf det
  if box.length ≠ 4 then none
  else
    let base := dictGet prompt_colors label ((0 : ℤ), (0 : ℤ), (0 : ℤ))
    let r := pyInt (base.1 * score)
    let g := pyInt (base.2.1 * score)
    let b := pyInt (base.2.2 * score)
    some { box := box, color := (r, g, b), label := label, score := score }

/-- The `for det in detections` loop of `draw_bounding_boxes`
(src/app.py lines 209-225), accumulating draw operations in order. -/
def drawLoop (prompt_colors : List (String × RGB)) : List Detection → List DrawOp
  | [] => []
  | det :: rest =>
    match opOf prompt_colors det with
    | none => drawLoop prompt_colors rest
    | some op => op :: drawLoop prompt_colors rest

/-- `draw_bounding_boxes` of src/app.py (lines 200-229): open the image,
convert to RGB, draw every well-formed detection, re-encode as JPEG. -/
def draw_bounding_boxes (decoded_image : List ℕ) (detections : List Detection)
    (prompt_colors : List (String × RGB)) : Annotated :=
  { sourceBytes := decoded_image
    convertedRGB := true
    ops := drawLoop prompt_colors detections }

end App

theorem App.drawLoop_eq_filterMap (colors : List (String × RGB)) :
    ∀ dets : List Detection, App.drawLoop colors dets = dets.filterMap (App.opOf colors)
  | [] => rfl
  | det :: rest => by
    simp only [App.drawLoop, List.filterMap_cons]
    cases App.opOf colors det <;>
      simp [App.drawLoop_eq_filterMap colors rest]

/-- The comparison used by both variants for
`sort(key=lambda x: x.get("score", 0), reverse=True)`:
`a` may come before `b` when `a`'s score is at least `b`'s. -/
def detGE (a b : Detection) : Prop := scoreOf b ≤ scoreOf a

instance : DecidableRel detGE := fun a b =>
  (inferInstance : Decidable (scoreOf b ≤ scoreOf a))

instance : IsTotal Detection detGE :=
  ⟨fun a b => (le_total (scoreOf b) (scoreOf a)).imp id id⟩

instance : IsTrans Detection detGE :=
  ⟨fun _ _ _ hab hbc => le_trans hbc hab⟩

/-- Python's stable descending sort by `x.get("score", 0)`
(src/app.py line 321, src/app_try.py lines 161 and 255), modelled by the
stable insertion sort. -/
def sortDetections (l : List Detection) : List Detection := l.insertionSort detGE

namespace AppTry

/-- Python `min(x, xs...)` as a left fold. -/
def listMin (x : ℚ) (xs : List ℚ) : ℚ := xs.foldl min x

/-- Python `max(x, xs...)` as a left fold. -/
def listMax (x : ℚ) (xs : List ℚ) : ℚ := xs.foldl max x

/-- The per-detection color/draw computation of the loop of
`draw_bounding_boxes` in src/app_try.py (lines 161-171): normalized score
mapped onto a red-to-green gradient. -/
def opTryOf (min_score max_score : ℚ) (det : Detection) : DrawOp :=
  let label := labelOf det
  let score := scoreOf det
  let box := boxOf det
  let norm_score : ℚ :=
    if max_score > min_score then (score - min_score) / (max_score - min_score) else 1
  let r := pyInt (255 * (1 - norm_score))
  let g := pyInt (255 * norm_score)
  { box := box, color := (r, g, 0), label := label, score := score }

/-- The `for det in sorted(...)` loop of src/app_try.py (lines 161-171).
The tuple unpacking `xmin, ymin, xmax, ymax = box` raises when the box does
not have exactly 4 coordinates; there is no guard in this variant. -/
def drawTryLoop (min_score max_score : ℚ) : List Detection → Except String (List DrawOp)
  | [] => .ok []
  | det :: rest =>
    if (boxOf det).length = 4 then
      match drawTryLoop min_score max_score rest with
      | .error e => .error e
      | .ok ops => .ok (opTryOf min_score max_score det :: ops)
    else .error "ValueError: cannot unpack bounding_box"

/-- `draw_bounding_boxes` of src/app_try.py (lines 153-175): computes
`min(scores)` / `max(scores)` over the batch (raising on an empty batch),
then draws the detections in descending score order. No `.convert("RGB")`
is applied in this variant. -/
def draw_bounding_boxes (decoded_image : List ℕ) (detections : List Detection) :
    Except String Annotated :=
  match detections with
  | [] => .error "ValueError: min() arg is an empty sequence"
  | d :: ds =>
    let min_score := listMin (scoreOf d) (ds.map scoreOf)
    let max_score := listMax (scoreOf d) (ds.map scoreOf)
    match drawTryLoop min_score max_score (sortDetections (d :: ds)) with
    | .error e => .error e
    | .ok ops => .ok { sourceBytes := decoded_image, convertedRGB := false, ops := ops }

end AppTry

/-! ### The detect handlers -/

/-- One group inside the `data` field of the API response of src/app.py:
`detections = grp if isinstance(grp, list) else [grp]` (line 312). -/
inductive DetGrp where
  | one (d : Detection)
  | many (l : List Detection)
  deriving DecidableEq, Repr

def DetGrp.toDetections : DetGrp → List Detection
  | one d => [d]
  | many l => l

/-- The JSON body of a successful response in src/app.py: the `data` key
may be absent. -/
structure ApiResponse where
  data : Option (List DetGrp)
  deriving DecidableEq, Repr

namespace App

def failMsg (prompt e : String) : String :=
  "Failed detecting '" ++ prompt ++ "': " ++ e ++ "\n"

def foundMsg (n : ℕ) (prompt : String) : String :=
  "Found " ++ toString n ++ " detection(s) for '" ++ prompt ++ "'\n"

def noneMsg (prompt : String) : String :=
  "No detections returned for '" ++ prompt ++ "'\n"

/-- Status lines appended for one prompt's successful response
(src/app.py lines 310-316): one `Found ...` line per group when `data` is
present and non-empty, else a single `No detections returned` line. -/
def promptStatus (res : ApiResponse) (prompt : String) : List String :=
  match res.data with
  | some (g :: gs) => (g :: gs).map (fun grp => foundMsg grp.toDetections.length prompt)
  | _ => [noneMsg prompt]

/-- Detections collected from one prompt's successful response
(src/app.py lines 310-314). -/
def promptDetections (res : ApiResponse) : List Detection :=
  match res.data with
  | some (g :: gs) => ((g :: gs).map DetGrp.toDetections).flatten
  | _ => []

/-- The `for prompt in prompts_list` loop of `detect_objects`
(src/app.py lines 304-316). Returns (status lines, combined detections,
trace of prompts for which the remote API was invoked). A failed call
appends a `Failed detecting` line and continues with the next prompt. -/
def detectLoop (img : List ℕ) (api_key : String)
    (api : List ℕ → String → String → Except String ApiResponse) :
    List String → List String × List Detection × List String
  | [] => ([], [], [])
  | p :: ps =>
    let rest := detectLoop img api_key api ps
    match api img p api_key with
    | .error e => (failMsg p e :: rest.1, rest.2.1, p :: rest.2.2)
    | .ok res =>
        (promptStatus res p ++ rest.1, promptDetections res ++ rest.2.1, p :: rest.2.2)

/-- One row of the results table (src/app.py lines 329-335); `box` is the
raw `bounding_box` value, `none` standing for the `{}` default. -/
structure TableRow where
  label : String
  score : ℚ
  box : Option (List ℚ)
  deriving DecidableEq, Repr

def tableRowOf (det : Detection) : TableRow :=
  { label := labelOf det, score := scoreOf det, box := det.bounding_box }

/-- The conditional style color of one table row (src/app.py lines 336-343):
the same base-color-times-score computation as the annotator. -/
def styleColorOf (prompt_colors : List (String × RGB)) (det : Detection) : RGB :=
  let base := dictGet prompt_colors (labelOf det) ((0 : ℤ), (0 : ℤ), (0 : ℤ))
  (pyInt (base.1 * scoreOf det), pyInt (base.2.1 * scoreOf det),
    pyInt (base.2.2 * scoreOf det))

/-- `raw_prompts = [p.strip() for p in prompt_text.split(",") if p.strip()]`
then `prompts_list = raw_prompts[:3]` (src/app.py lines 287-288). -/
def parsePrompts (prompt_text : String) : List String :=
  (((prompt_text.splitOn ",").map String.trim).filter (fun s => !s.isEmpty)).take 3

/-- `prompt_colors = {prompts_list[i]: base_palette[i] ...}`
(src/app.py lines 293-294). -/
def buildPromptColors (prompts : List String) : List (String × RGB) :=
  prompts.zip [((0 : ℤ), (255 : ℤ), (0 : ℤ)), (0, 0, 255), (255, 0, 0)]

/-- Result of the `detect_objects` callback of src/app.py. -/
inductive DetOut where
  | msg (s : String)
  | raised (e : String)
  | ok (status : String) (table : List TableRow) (styleColors : List RGB)
      (annotated : Annotated)
  deriving DecidableEq, Repr

/-- `detect_objects` of src/app.py (lines 275-378). `b64decode` stands for
`base64.b64decode` and `api` for `call_agentic_object_detection_api`
(lines 186-197: `requests.post` + `raise_for_status`, an error value for a
transport error or non-success HTTP status). The second component is the
trace of prompts sent to the remote API. -/
def detect_objects (contents prompt_text api_key : Option String)
    (b64decode : String → List ℕ)
    (api : List ℕ → String → String → Except String ApiResponse) :
    DetOut × List String :=
  if pyFalsy contents then (.msg "No image uploaded yet.", [])
  else if pyFalsy prompt_text then (.msg "Please enter at least one prompt.", [])
  else if pyFalsy api_key then
    (.msg "API key missing. Please ensure you have saved your API key.", [])
  else
    let prompts_list := parsePrompts (prompt_text.getD "")
    if prompts_list.isEmpty then (.msg "No valid prompts found.", [])
    else
      let prompt_colors := buildPromptColors prompts_list
      let parts := (contents.getD "").splitOn ","
      if parts.length ≠ 2 then (.raised "ValueError: cannot unpack contents", [])
      else
        let decoded_image := b64decode ((parts.getD 1 ""))
        let res := detectLoop decoded_image (api_key.getD "") api prompts_list
        let header := toString prompts_list.length ++ " object type(s) prompted: " ++
          String.intercalate ", " prompts_list ++ ".\n"
        let status := header :: res.1
        let combined := res.2.1
        let calls := res.2.2
        if combined.isEmpty then
          (.msg (String.join status ++ "\nNo objects detected."), calls)
        else
          let sorted := sortDetections combined
          let table := sorted.map tableRowOf
          let styles := sorted.map (styleColorOf prompt_colors)
          let annotated := App.draw_bounding_boxes decoded_image sorted prompt_colors
          (.ok (String.join status) table styles annotated, calls)

end App

/-! ### The app_try detect handler -/

namespace AppTry

/-- The JSON body of a successful response in src/app_try.py: `data`, when
present, is a list whose first element is the detection list used. -/
structure TryResponse where
  data : Option (List (List Detection))
  deriving DecidableEq, Repr

/-- `f"{q:.2f}"`: two fractional digits (the rational stands for the float;
rounding of the halfway case follows `round`). -/
def fmt2 (q : ℚ) : String :=
  let n : ℤ := round (q * 100)
  let sgn := if n < 0 then "-" else ""
  let m := n.natAbs
  let fp := m % 100
  let fps := if fp < 10 then "0" ++ toString fp else toString fp
  sgn ++ toString (m / 100) ++ "." ++ fps

/-- `str(box)` where `box = det.get("bounding_box", {})`. -/
def boxStr (d : Detection) : String :=
  match d.bounding_box with
  | some l => toString l
  | none => "{}"

/-- One line of `output_str` (src/app_try.py line 261). -/
def outputLine (det : Detection) : String :=
  "- Label: " ++ labelOf det ++ ", Score: " ++ fmt2 (scoreOf det) ++
    ", Box: " ++ boxStr det ++ "\n"

/-- Result of the `detect_objects` callback of src/app_try.py. -/
inductive TryOut where
  | msg (s : String)
  | raised (e : String)
  | ok (output : String) (annotated : Annotated) (storeText : String)
  deriving DecidableEq, Repr

/-- `detect_objects` of src/app_try.py (lines 223-279). `api` stands for
`call_agentic_object_detection_api` (lines 132-150); the trace holds the
prompt text when the single remote call is attempted. -/
def detect_objects (contents prompt_text api_key : Option String)
    (b64decode : String → List ℕ)
    (api : List ℕ → String → String → Except String TryResponse) :
    TryOut × List String :=
  if pyFalsy contents then (.msg "No image uploaded yet.", [])
  else if pyFalsy prompt_text then (.msg "Please enter at least one prompt.", [])
  else if pyFalsy api_key then
    (.msg "API key missing. Please ensure you have saved your API key.", [])
  else
    let parts := (contents.getD "").splitOn ","
    if parts.length ≠ 2 then (.raised "ValueError: cannot unpack contents", [])
    else
      let decoded_image := b64decode (parts.getD 1 "")
      let ptext := prompt_text.getD ""
      match api decoded_image ptext (api_key.getD "") with
      | .error e => (.msg ("API call failed: " ++ e), [ptext])
      | .ok result =>
        match result.data with
        | none => (.msg "Unexpected response", [ptext])
        | some [] => (.msg "Unexpected response", [ptext])
        | some (dets0 :: _) =>
          if dets0.isEmpty then
            (.msg "No objects detected for the given prompts.", [ptext])
          else
            let detections := sortDetections dets0
            let output_str :=
              "Objects Detected:\n" ++ String.join (detections.map outputLine)
            match AppTry.draw_bounding_boxes decoded_image detections with
            | .error e => (.raised e, [ptext])
            | .ok annotated => (.ok output_str annotated output_str, [ptext])

end AppTry

/-! ### CSV serialization (src/app.py lines 410-415, `csv.DictWriter` with
fieldnames Label, Score, Bounding Box over a `StringIO`), modelled at the
character level, together with a parser used to state the round-trip
property of the packaged archive. -/

namespace Csv

/-- A field needs quoting when it holds the delimiter, the quote char or a
line-terminator char (Python csv QUOTE_MINIMAL with terminator CRLF). -/
def needsQuote (f : List Char) : Bool :=
  f.any (fun c => c == ',' || c == '"' || c == '\n' || c == '\x0d')

/-- Double every quote char (csv escaping inside a quoted field). -/
def escQ : List Char → List Char
  | [] => []
  | c :: cs => if c = '"' then '"' :: '"' :: escQ cs else c :: escQ cs

/-- Encode one field, quoting when needed. -/
def encField (f : List Char) : List Char :=
  if needsQuote f then '"' :: (escQ f ++ ['"']) else f

/-- Encode the fields of one record, comma-separated. -/
def encFields : List (List Char) → List Char
  | [] => []
  | [f] => encField f
  | f :: g :: fs => encField f ++ ',' :: encFields (g :: fs)

/-- Encode one record with the CRLF terminator the csv writer appends. -/
def encRecord (fs : List (List Char)) : List Char :=
  encFields fs ++ ['\x0d', '\n']

/-- Encode a whole document: one record per row. -/
def encDoc (rows : List (List (List Char))) : List Char :=
  (rows.map encRecord).flatten

/-- Parse the inside of a quoted field; `acc` is the field read so far.
Returns the field and the input after the closing quote. -/
def parseQuoted (acc : List Char) : List Char → Option (List Char × List Char)
  | [] => none
  | c :: rest =>
    if c = '"' then
      match rest with
      | [] => some (acc, [])
      | c2 :: rest2 =>
        if c2 = '"' then parseQuoted (acc ++ ['"']) rest2 else some (acc, rest)
    else parseQuoted (acc ++ [c]) rest

/-- Parse an unquoted field: read until a comma or a CR. -/
def parseUnquoted (acc : List Char) : List Char → List Char × List Char
  | [] => (acc, [])
  | c :: rest =>
    if c = ',' ∨ c = '\x0d' then (acc, c :: rest)
    else parseUnquoted (acc ++ [c]) rest

/-- Parse one field (quoted or not). -/
def parseField (l : List Char) : Option (List Char × List Char) :=
  match l with
  | [] => some (parseUnquoted [] [])
  | c :: rest =>
    if c = '"' then parseQuoted [] rest else some (parseUnquoted [] (c :: rest))

/-- Parse the fields of one record up to and including its CRLF terminator;
`fuel` bounds the number of fields. -/
def parseRecAux (acc : List (List Char)) : ℕ → List Char → Option (List (List Char) × List Char)
  | 0, _ => none
  | fuel + 1, l =>
    match parseField l with
    | none => none
    | some (f, rest) =>
      match rest with
      | [] => none
      | c :: rest2 =>
        if c = ',' then parseRecAux (acc ++ [f]) fuel rest2
        else if c = '\x0d' then
          match rest2 with
          | [] => none
          | c2 :: rest3 => if c2 = '\n' then some (acc ++ [f], rest3) else none
        else none

def parseRecord (l : List Char) : Option (List (List Char) × List Char) :=
  parseRecAux [] (l.length + 1) l

/-- Parse a document: records until the input is exhausted; `fuel` bounds
the number of records. -/
def parseDocAux (acc : List (List (List Char))) :
    ℕ → List Char → Option (List (List (List Char)))
  | _, [] => some acc
  | 0, _ :: _ => none
  | fuel + 1, c :: cs =>
    match parseRecord (c :: cs) with
    | none => none
    | some (fs, rest) => parseDocAux (acc ++ [fs]) fuel rest

def parseDoc (l : List Char) : Option (List (List (List Char))) :=
  parseDocAux [] (l.length + 1) l

end Csv

/-! ### The result packager (`download_results`) -/

/-- `p` is a prefix of the character list `s` (helper for Python
`str.startswith`, stated over the character lists so that it evaluates). -/
def startsWithChars : List Char → List Char → Bool
  | [], _ => true
  | _ :: _, [] => false
  | p :: ps, s :: ss => p = s && startsWithChars ps ss

/-- Python `s.startswith(p)`. -/
def strStartsWith (s p : String) : Bool := startsWithChars p.data s.data

/-- Split a character list at every occurrence of `c` (Python
`str.split(c)`: always at least one part, empty parts kept). -/
def splitOnChar (c : Char) : List Char → List (List Char)
  | [] => [[]]
  | x :: xs =>
    match splitOnChar c xs with
    | [] => [[]]
    | y :: ys => if x = c then [] :: y :: ys else (x :: y) :: ys

/-- Python `s.split(c)` over the string's characters. -/
def pySplit (c : Char) (s : String) : List (List Char) := splitOnChar c s.data

/-- The payload of one archive entry (`zipfile.writestr` accepts bytes or
text). -/
inductive Payload where
  | bytes (b : List ℕ)
  | text (t : List Char)
  deriving DecidableEq, Repr

/-- Result of a `download_results` callback: no update, an exception, or an
in-memory archive (entry name to payload) offered under a file name. -/
inductive DownloadOut where
  | noUpdate
  | raised (e : String)
  | file (name : String) (entries : List (String × Payload))
  deriving DecidableEq, Repr

/-- Read one entry of the packaged archive back by name. -/
def zipRead (entries : List (String × Payload)) (name : String) : Option Payload :=
  (entries.find? (fun e => e.1 == name)).map (fun e => e.2)

namespace App

/-- The detection store of src/app.py (lines 373-376): the annotated image
as a data URL and the table rows, each row the three already-formatted
strings (Label, Score, Bounding Box). -/
structure StoreData where
  annotated_image : String
  detection_table : List (String × String × String)
  deriving DecidableEq, Repr

/-- The fields of one store row in `fieldnames` order. -/
def rowFields (r : String × String × String) : List (List Char) :=
  [r.1.data, r.2.1.data, r.2.2.data]

/-- The csv header row written by `w.writeheader()`. -/
def headerFields : List (List Char) :=
  ["Label".data, "Score".data, "Bounding Box".data]

/-- The csv bytes produced at src/app.py lines 411-415. -/
def csvBytes (tbl : List (String × String × String)) : List Char :=
  Csv.encDoc (headerFields :: tbl.map rowFields)

/-- `download_results` of src/app.py (lines 403-426): decode the data URL,
write the image and the csv into an in-memory ZIP, offer it as
`results.zip`. `b64decode` stands for `base64.b64decode` on the part after
the first comma of the data URL. -/
def download_results (data : Option StoreData) (b64decode : List Char → List ℕ) :
    DownloadOut :=
  match data with
  | none => .noUpdate
  | some d =>
    let ann := d.annotated_image
    let img_b : Except String (List ℕ) :=
      if strStartsWith ann "data:image" then
        match (pySplit ',' ann).get? 1 with
        | some part => .ok (b64decode part)
        | none => .error "IndexError: list index out of range"
      else .ok []
    match img_b with
    | .error e => .raised e
    | .ok img =>
      .file "results.zip"
        [("annotated_image.jpg", .bytes img),
          ("results.csv", .text (csvBytes d.detection_table))]

end App

namespace AppTry

/-- The detection store of src/app_try.py (lines 274-277). -/
structure TryStoreData where
  annotated_image : Option String
  detection_text : String
  deriving DecidableEq, Repr

/-- `download_results` of src/app_try.py (lines 307-327): the archive holds
the annotated image and the freeform text summary. -/
def download_results (data : Option TryStoreData) (b64decode : List Char → List ℕ) :
    DownloadOut :=
  match data with
  | none => .noUpdate
  | some d =>
    let img_b : Except String (List ℕ) :=
      match d.annotated_image with
      | some ann =>
        if strStartsWith ann "data:image" then
          match (pySplit ',' ann).get? 1 with
          | some part => .ok (b64decode part)
          | none => .error "IndexError: list index out of range"
        else .ok []
      | none => .ok []
    match img_b with
    | .error e => .raised e
    | .ok img =>
      .file "results.zip"
        [("annotated_image.jpg", .bytes img),
          ("detection_results.txt", .text d.detection_text.data)]

end AppTry

/-! ### CSV round-trip lemmas -/

namespace Csv

/-- The continuations at which an encoded field may stop: end of input, a
separator, or the CR of the record terminator. -/
def stopHead (rest : List Char) : Prop :=
  rest.head? = none ∨ rest.head? = some ',' ∨ rest.head? = some '\x0d'

theorem parseQuoted_escQ :
    ∀ (f acc rest : List Char), rest.head? ≠ some '"' →
      parseQuoted acc (escQ f ++ '"' :: rest) = some (acc ++ f, rest)
  | [], acc, rest, h => by
    cases rest with
    | nil => simp [escQ, parseQuoted]
    | cons c2 rest2 =>
      have hc2 : ¬ c2 = '"' := by simpa using h
      simp [escQ, parseQuoted, hc2]
  | c :: cs, acc, rest, h => by
    by_cases hc : c = '"'
    · subst hc
      have ih := parseQuoted_escQ cs (acc ++ ['"']) rest h
      simp only [escQ, if_pos rfl, List.cons_append, parseQuoted, List.append_assoc,
        List.singleton_append] at ih ⊢
      simpa using ih
    · have ih := parseQuoted_escQ cs (acc ++ [c]) rest h
      simp only [escQ, if_neg hc, List.cons_append, List.append_assoc,
        List.singleton_append] at ih ⊢
      rw [parseQuoted.eq_def]
      simpa [hc] using ih

theorem parseUnquoted_clean :
    ∀ (f acc rest : List Char), (∀ c ∈ f, ¬(c = ',' ∨ c = '\x0d')) → stopHead rest →
      parseUnquoted acc (f ++ rest) = (acc ++ f, rest)
  | [], acc, rest, _, hr => by
    cases rest with
    | nil => simp [parseUnquoted]
    | cons c t =>
      have : c = ',' ∨ c = '\x0d' := by
        rcases hr with h | h | h <;> simp_all [stopHead]
      simp [parseUnquoted, this]
  | c :: cs, acc, rest, hf, hr => by
    have hc : ¬(c = ',' ∨ c = '\x0d') := hf c (by simp)
    have ih := parseUnquoted_clean cs (acc ++ [c]) rest (fun x hx => hf x (by simp [hx])) hr
    simp only [List.cons_append, parseUnquoted, if_neg hc]
    simpa using ih

theorem parseField_encField (f rest : List Char) (hr : stopHead rest) :
    parseField (encField f ++ rest) = some (f, rest) := by
  by_cases hq : needsQuote f
  · have hrq : rest.head? ≠ some '"' := by
      rcases hr with h | h | h <;> simp [h]
    have := parseQuoted_escQ f [] rest hrq
    simp only [encField, if_pos hq, List.cons_append, parseField, List.append_assoc,
      List.singleton_append]
    simpa using this
  · have hclean : ∀ c ∈ f, ¬(c = ',' ∨ c = '\x0d') := by
      intro c hc hor
      apply hq
      simp only [needsQuote, List.any_eq_true]
      exact ⟨c, hc, by rcases hor with h | h <;> simp [h]⟩
    have hnoq : ∀ c ∈ f, ¬ c = '"' := by
      intro c hc h
      apply hq
      simp only [needsQuote, List.any_eq_true]
      exact ⟨c, hc, by simp [h]⟩
    have hun := parseUnquoted_clean f [] rest hclean hr
    rw [encField, if_neg hq]
    cases hf : f with
    | nil =>
      cases rest with
      | nil => simp [parseField, parseUnquoted]
      | cons c t =>
        have : c = ',' ∨ c = '\x0d' := by
          rcases hr with h | h | h <;> simp_all [stopHead]
        have hcq : ¬ c = '"' := by
          rcases this with h | h <;> simp [h]
        simp only [hf, List.nil_append] at hun ⊢
        simp [parseField, hcq, hun]
    | cons c cs =>
      have hcq : ¬ c = '"' := hnoq c (by simp [hf])
      subst hf
      simp only [List.cons_append] at hun ⊢
      simp [parseField, hcq, hun]

theorem encFields_length_ge : ∀ fs : List (List Char), fs.length ≤ (encFields fs).length + 1
  | [] => by simp [encFields]
  | [f] => by simp [encFields]
  | f :: g :: fs => by
    have ih := encFields_length_ge (g :: fs)
    simp only [encFields, List.length_append, List.length_cons] at ih ⊢
    omega

theorem parseRecAux_enc :
    ∀ (fs : List (List Char)) (acc : List (List Char)) (rest : List Char) (fuel : ℕ),
      fs ≠ [] → fs.length ≤ fuel →
      parseRecAux acc fuel (encFields fs ++ '\x0d' :: '\n' :: rest) = some (acc ++ fs, rest)
  | [], _, _, _, h, _ => absurd rfl h
  | [f], acc, rest, fuel, _, hfuel => by
    obtain ⟨k, rfl⟩ : ∃ k, fuel = k + 1 := ⟨fuel - 1, by simp at hfuel; omega⟩
    have hpf := parseField_encField f ('\x0d' :: '\n' :: rest) (by simp [stopHead])
    rw [parseRecAux.eq_def]
    simp only [encFields]
    simp [hpf]
  | f :: g :: fs, acc, rest, fuel, _, hfuel => by
    obtain ⟨k, rfl⟩ : ∃ k, fuel = k + 1 := ⟨fuel - 1, by simp at hfuel; omega⟩
    have hpf := parseField_encField f
      (',' :: (encFields (g :: fs) ++ '\x0d' :: '\n' :: rest)) (by simp [stopHead])
    have ih := parseRecAux_enc (g :: fs) (acc ++ [f]) rest k (by simp)
      (by simp only [List.length_cons] at hfuel ⊢; omega)
    rw [parseRecAux.eq_def]
    simp only [encFields, List.append_assoc, List.cons_append]
    simp [hpf, ih]

theorem parseRecord_enc (fs : List (List Char)) (rest : List Char) (h : fs ≠ []) :
    parseRecord (encFields fs ++ '\x0d' :: '\n' :: rest) = some (fs, rest) := by
  unfold parseRecord
  have hlen : fs.length ≤ (encFields fs ++ '\x0d' :: '\n' :: rest).length + 1 := by
    have := encFields_length_ge fs
    simp only [List.length_append, List.length_cons]
    omega
  simpa using parseRecAux_enc fs [] rest _ h hlen

theorem encDoc_length_ge : ∀ rows : List (List (List Char)), rows.length ≤ (encDoc rows).length
  | [] => by simp [encDoc]
  | r :: rs => by
    have ih := encDoc_length_ge rs
    simp only [encDoc, List.map_cons, List.flatten_cons, List.length_append, encRecord,
      List.length_append, List.length_cons] at ih ⊢
    omega

theorem parseDocAux_enc :
    ∀ (rows : List (List (List Char))) (acc : List (List (List Char))) (fuel : ℕ),
      (∀ r ∈ rows, r ≠ []) → rows.length ≤ fuel →
      parseDocAux acc fuel (encDoc rows) = some (acc ++ rows)
  | [], acc, fuel, _, _ => by
    rw [parseDocAux.eq_def]
    simp [encDoc]
  | r :: rs, acc, fuel, hne, hfuel => by
    obtain ⟨k, rfl⟩ : ∃ k, fuel = k + 1 := ⟨fuel - 1, by simp at hfuel; omega⟩
    have hr : r ≠ [] := hne r (by simp)
    have hshape : encDoc (r :: rs) = encFields r ++ '\x0d' :: '\n' :: encDoc rs := by
      simp [encDoc, encRecord, List.append_assoc]
    have hrec : parseRecord (encDoc (r :: rs)) = some (r, encDoc rs) := by
      rw [hshape]
      exact parseRecord_enc r (encDoc rs) hr
    have ih := parseDocAux_enc rs (acc ++ [r]) k (fun x hx => hne x (by simp [hx]))
      (by simp only [List.length_cons] at hfuel; omega)
    have hnonnil : encDoc (r :: rs) ≠ [] := by
      have := encDoc_length_ge (r :: rs)
      intro hcontra
      rw [hcontra] at this
      simp at this
    cases hsh : encDoc (r :: rs) with
    | nil => exact absurd hsh hnonnil
    | cons c cs =>
      have hstep : parseDocAux acc (k + 1) (c :: cs) =
          match parseRecord (c :: cs) with
          | none => none
          | some (fs, rest) => parseDocAux (acc ++ [fs]) k rest := rfl
      rw [hstep, ← hsh, hrec]
      simpa using ih

theorem parseDoc_encDoc (rows : List (List (List Char))) (h : ∀ r ∈ rows, r ≠ []) :
    parseDoc (encDoc rows) = some rows := by
  unfold parseDoc
  have hlen := encDoc_length_ge rows
  simpa using parseDocAux_enc rows [] ((encDoc rows).length + 1) h (by omega)

end Csv

/-! ### Helper lemmas on sorting, drawing and the detect loop -/

theorem sortDetections_sorted (l : List Detection) :
    List.Sorted detGE (sortDetections l) :=
  List.sorted_insertionSort detGE l

theorem sortDetections_perm (l : List Detection) : List.Perm (sortDetections l) l :=
  List.perm_insertionSort detGE l

theorem pyInt_nonneg (q : ℚ) (h : 0 ≤ q) : pyInt q = ⌊q⌋ := if_pos h

theorem AppTry.drawTryLoop_ok (mn mx : ℚ) :
    ∀ dets : List Detection, (∀ d ∈ dets, (boxOf d).length = 4) →
      AppTry.drawTryLoop mn mx dets = .ok (dets.map (AppTry.opTryOf mn mx))
  | [], _ => rfl
  | d :: ds, h => by
    have hd := h d (by simp)
    have ih := AppTry.drawTryLoop_ok mn mx ds (fun x hx => h x (by simp [hx]))
    simp [AppTry.drawTryLoop, hd, ih]

theorem AppTry.draw_ok (b : List ℕ) (d : Detection) (ds : List Detection)
    (h : ∀ x ∈ d :: ds, (boxOf x).length = 4) :
    AppTry.draw_bounding_boxes b (d :: ds) =
      .ok { sourceBytes := b, convertedRGB := false,
            ops := (sortDetections (d :: ds)).map
              (AppTry.opTryOf (AppTry.listMin (scoreOf d) (ds.map scoreOf))
                (AppTry.listMax (scoreOf d) (ds.map scoreOf))) } := by
  have hall : ∀ x ∈ sortDetections (d :: ds), (boxOf x).length = 4 := fun x hx =>
    h x ((sortDetections_perm (d :: ds)).mem_iff.mp hx)
  simp [AppTry.draw_bounding_boxes, AppTry.drawTryLoop_ok _ _ _ hall]

/-- Detections contributed by one prompt, as collected by the loop of
src/app.py: empty on a failed call, else the flattened `data` groups. -/
def App.promptSuccessDets (img : List ℕ) (key : String)
    (api : List ℕ → String → String → Except String ApiResponse) (p : String) :
    List Detection :=
  match api img p key with
  | .error _ => []
  | .ok res => App.promptDetections res

theorem App.detectLoop_calls (img : List ℕ) (key : String)
    (api : List ℕ → String → String → Except String ApiResponse) :
    ∀ prompts : List String, (App.detectLoop img key api prompts).2.2 = prompts
  | [] => rfl
  | p :: ps => by
    have ih := App.detectLoop_calls img key api ps
    simp only [App.detectLoop]
    cases api img p key <;> simp [ih]

theorem App.detectLoop_dets (img : List ℕ) (key : String)
    (api : List ℕ → String → String → Except String ApiResponse) :
    ∀ prompts : List String,
      (App.detectLoop img key api prompts).2.1 =
        (prompts.map (App.promptSuccessDets img key api)).flatten
  | [] => rfl
  | p :: ps => by
    have ih := App.detectLoop_dets img key api ps
    simp only [App.detectLoop, App.promptSuccessDets, List.map_cons, List.flatten_cons]
    cases h : api img p key <;> simp [h, ih]

theorem App.detectLoop_fail_recorded (img : List ℕ) (key : String)
    (api : List ℕ → String → String → Except String ApiResponse) (q e : String) :
    ∀ prompts : List String, q ∈ prompts → api img q key = .error e →
      App.failMsg q e ∈ (App.detectLoop img key api prompts).1
  | [], hq, _ => absurd hq (by simp)
  | p :: ps, hq, he => by
    simp only [App.detectLoop]
    rcases List.mem_cons.mp hq with rfl | hq2
    · simp [he]
    · have ih := App.detectLoop_fail_recorded img key api q e ps hq2 he
      cases api img p key <;> simp [ih]

/-! ### Claim theorems -/

/-- C1 counterexample: in the single-prompt (no-color-map) variant
(src/app_try.py), a detection whose bounding box has length 3 is NOT
skipped: the tuple unpacking raises, so annotation fails instead of
proceeding. This refutes the claim that malformed boxes are skipped in
both variants. -/
theorem C1_counterexample :
    AppTry.draw_bounding_boxes [0]
      [⟨some "cat", some 1, some [1, 2, 3]⟩] =
      .error "ValueError: cannot unpack bounding_box" := rfl

/-- C1 (amended): in the multi-prompt (color-map) variant (src/app.py), a
detection whose bounding box does not have exactly 4 coordinates is
skipped without raising and without being drawn, and the remaining
detections are annotated normally (the draw operations are exactly the
per-detection results of the well-formed detections, in order). In the
single-prompt variant such a detection instead raises
(`C1_counterexample`). -/
theorem C1_thm (b : List ℕ) (dets : List Detection)
    (colors : List (String × RGB)) :
    (App.draw_bounding_boxes b dets colors).ops = dets.filterMap (App.opOf colors) ∧
    ∀ d : Detection, (boxOf d).length ≠ 4 → App.opOf colors d = none := by
  refine ⟨App.drawLoop_eq_filterMap colors dets, ?_⟩
  intro d hd
  simp [App.opOf, hd]

/-- C1 witness: a batch with one malformed (length-3) box and one
well-formed box is annotated by the color-map variant without the
malformed one, and its draw operation list keeps the well-formed one. -/
theorem C1_witness :
    (App.draw_bounding_boxes [0]
        [⟨some "a", some 1, some [1, 2, 3]⟩, ⟨some "a", some 0, some [1, 2, 3, 4]⟩]
        []).ops =
      [⟨[1, 2, 3, 4], (0, 0, 0), "a", 0⟩] ∧
    App.opOf [] (⟨some "a", some 1, some [1, 2, 3]⟩ : Detection) = none := by
  constructor
  · rw [(C1_thm [0] [⟨some "a", some 1, some [1, 2, 3]⟩,
      ⟨some "a", some 0, some [1, 2, 3, 4]⟩] []).1]
    simp [App.opOf, boxOf, labelOf, scoreOf, dictGet, pyInt]
  · exact (C1_thm [0] [] []).2 _ (by decide)

/-- C3 counterexample: in the single-prompt variant (src/app_try.py),
annotating a valid image with an EMPTY detection batch does not return the
unchanged image: `min(scores)` raises on the empty sequence. This refutes
the claim that an empty batch is a no-op in both variants. -/
theorem C3_counterexample :
    AppTry.draw_bounding_boxes [7] [] =
      .error "ValueError: min() arg is an empty sequence" := rfl

/-- C3 (amended): in the multi-prompt (color-map) variant (src/app.py),
annotating any image with an empty detection batch performs no drawing:
the result is the channel-converted (RGB) source image with an empty draw
operation list, re-encoded — i.e. pixel-identical to the channel-converted
source up to the JPEG re-encode. In the single-prompt variant an empty
batch instead raises (`C3_counterexample`). -/
theorem C3_thm (b : List ℕ) (colors : List (String × RGB)) :
    App.draw_bounding_boxes b [] colors =
      { sourceBytes := b, convertedRGB := true, ops := [] } := rfl

theorem pyInt_zero : pyInt 0 = 0 := by simp [pyInt]

/-- C4: in the color-map (multi-prompt) annotator of src/app.py, every
drawn detection's color is its prompt's base RGB color scaled
component-wise by its own score, each channel rounded down (for the
nonnegative scores and base channels of an RGB color); the color depends
only on the detection and the color map, never on the rest of the batch
(the draw list is a per-detection `filterMap`); and concretely a score-0.9
detection with base color (0,255,0) is drawn in (0,229,0). -/
theorem C4_thm :
    (∀ (colors : List (String × RGB)) (d : Detection) (op : DrawOp),
      App.opOf colors d = some op → 0 ≤ scoreOf d →
      0 ≤ (dictGet colors (labelOf d) ((0 : ℤ), (0 : ℤ), (0 : ℤ))).1 →
      0 ≤ (dictGet colors (labelOf d) ((0 : ℤ), (0 : ℤ), (0 : ℤ))).2.1 →
      0 ≤ (dictGet colors (labelOf d) ((0 : ℤ), (0 : ℤ), (0 : ℤ))).2.2 →
      op.color =
        (⌊((dictGet colors (labelOf d) ((0 : ℤ), (0 : ℤ), (0 : ℤ))).1 : ℚ) * scoreOf d⌋,
         ⌊((dictGet colors (labelOf d) ((0 : ℤ), (0 : ℤ), (0 : ℤ))).2.1 : ℚ) * scoreOf d⌋,
         ⌊((dictGet colors (labelOf d) ((0 : ℤ), (0 : ℤ), (0 : ℤ))).2.2 : ℚ) * scoreOf d⌋)) ∧
    (∀ (b : List ℕ) (dets : List Detection) (colors : List (String × RGB)),
      (App.draw_bounding_boxes b dets colors).ops = dets.filterMap (App.opOf colors)) ∧
    App.opOf [("cat", ((0 : ℤ), (255 : ℤ), (0 : ℤ)))]
        ⟨some "cat", some (9/10), some [10, 10, 50, 50]⟩ =
      some ⟨[10, 10, 50, 50], ((0 : ℤ), (229 : ℤ), (0 : ℤ)), "cat", 9/10⟩ := by
  refine ⟨?_, fun b dets colors => App.drawLoop_eq_filterMap colors dets, ?_⟩
  · intro colors d op hop hs h1 h2 h3
    by_cases hb : (boxOf d).length ≠ 4
    · simp [App.opOf, hb] at hop
    · simp only [App.opOf, if_neg hb] at hop
      rw [← Option.some_inj.mp hop]
      have c1 := pyInt_nonneg _ (mul_nonneg (Int.cast_nonneg.mpr h1) hs)
      have c2 := pyInt_nonneg _ (mul_nonneg (Int.cast_nonneg.mpr h2) hs)
      have c3 := pyInt_nonneg _ (mul_nonneg (Int.cast_nonneg.mpr h3) hs)
      simp only [c1, c2, c3]
  · have h229 : pyInt ((255 : ℤ) * (9/10 : ℚ)) = 229 := by
      rw [pyInt_nonneg _ (by norm_num)]
      norm_num [Int.floor_eq_iff]
    have h229b : pyInt ((459 : ℚ)/2) = 229 := by
      rw [pyInt_nonneg _ (by norm_num)]
      norm_num [Int.floor_eq_iff]
    have hdg : dictGet [("cat", ((0 : ℤ), (255 : ℤ), (0 : ℤ)))] "cat"
        ((0 : ℤ), (0 : ℤ), (0 : ℤ)) = ((0 : ℤ), (255 : ℤ), (0 : ℤ)) := by decide
    simp only [App.opOf, boxOf, labelOf, scoreOf, Option.getD_some, hdg]
    norm_num [pyInt_zero, h229, h229b]

/-- C4 witness: the general color law applied to the concrete score-0.9
"cat" detection with base color (0,255,0). -/
theorem C4_witness :
    (DrawOp.mk [10, 10, 50, 50] ((0 : ℤ), (229 : ℤ), (0 : ℤ)) "cat" (9/10)).color =
      (⌊((dictGet [("cat", ((0 : ℤ), (255 : ℤ), (0 : ℤ)))]
            (labelOf ⟨some "cat", some (9/10), some [10, 10, 50, 50]⟩)
            ((0 : ℤ), (0 : ℤ), (0 : ℤ))).1 : ℚ) *
          scoreOf ⟨some "cat", some (9/10), some [10, 10, 50, 50]⟩⌋,
       ⌊((dictGet [("cat", ((0 : ℤ), (255 : ℤ), (0 : ℤ)))]
            (labelOf ⟨some "cat", some (9/10), some [10, 10, 50, 50]⟩)
            ((0 : ℤ), (0 : ℤ), (0 : ℤ))).2.1 : ℚ) *
          scoreOf ⟨some "cat", some (9/10), some [10, 10, 50, 50]⟩⌋,
       ⌊((dictGet [("cat", ((0 : ℤ), (255 : ℤ), (0 : ℤ)))]
            (labelOf ⟨some "cat", some (9/10), some [10, 10, 50, 50]⟩)
            ((0 : ℤ), (0 : ℤ), (0 : ℤ))).2.2 : ℚ) *
          scoreOf ⟨some "cat", some (9/10), some [10, 10, 50, 50]⟩⌋) :=
  C4_thm.1 _ _ _ C4_thm.2.2 (by norm_num [scoreOf]) (by decide) (by decide) (by decide)

theorem dictGet_default {α : Type} (l : List (String × α)) (k : String) (dflt : α)
    (h : ∀ p ∈ l, p.1 ≠ k) : dictGet l k dflt = dflt := by
  have hn : l.reverse.find? (fun p => p.1 == k) = none := by
    apply List.find?_eq_none.mpr
    intro p hp
    simp [h p (List.mem_reverse.mp hp)]
  simp [dictGet, hn]

/-- C9: in the multi-prompt annotator of src/app.py, a detection whose
label is not a key of the prompt-color map gets the default base color
(0,0,0), so its rectangle/text color is (0,0,0) — black — regardless of
its score; the same holds for its conditional table style color. -/
theorem C9_thm (colors : List (String × RGB)) (d : Detection)
    (h : ∀ p ∈ colors, p.1 ≠ labelOf d) :
    (∀ op : DrawOp, App.opOf colors d = some op →
      op.color = ((0 : ℤ), (0 : ℤ), (0 : ℤ))) ∧
    App.styleColorOf colors d = ((0 : ℤ), (0 : ℤ), (0 : ℤ)) := by
  have hd := dictGet_default colors (labelOf d) ((0 : ℤ), (0 : ℤ), (0 : ℤ)) h
  constructor
  · intro op hop
    by_cases hb : (boxOf d).length ≠ 4
    · simp [App.opOf, hb] at hop
    · simp only [App.opOf, if_neg hb, hd] at hop
      rw [← Option.some_inj.mp hop]
      simp [pyInt_zero]
  · have hd0 : dictGet colors (labelOf d) (0 : RGB) = ((0 : ℤ), (0 : ℤ), (0 : ℤ)) := hd
    simp [App.styleColorOf, hd, hd0, pyInt_zero]

/-- C9 witness: a "dog" detection under a color map containing only "cat"
is drawn in black despite its score 1. -/
theorem C9_witness :
    (∀ op : DrawOp,
      App.opOf [("cat", ((0 : ℤ), (255 : ℤ), (0 : ℤ)))]
          ⟨some "dog", some 1, some [1, 2, 3, 4]⟩ = some op →
      op.color = ((0 : ℤ), (0 : ℤ), (0 : ℤ))) ∧
    App.styleColorOf [("cat", ((0 : ℤ), (255 : ℤ), (0 : ℤ)))]
        ⟨some "dog", some 1, some [1, 2, 3, 4]⟩ = ((0 : ℤ), (0 : ℤ), (0 : ℤ)) :=
  C9_thm [("cat", ((0 : ℤ), (255 : ℤ), (0 : ℤ)))]
    ⟨some "dog", some 1, some [1, 2, 3, 4]⟩ (by decide)

/-- C10: the pipeline substitutes defaults for missing detection fields: a
missing `label` is drawn and tabulated as "N/A" (in both annotation
variants and in the results table), and a missing `score` is treated as 0,
which places the detection after every positive-score detection in the
descending sort (every detection after it in the sorted order has score
at most 0, and its own sort key is 0) and makes the color-map annotator
scale its color to (0,0,0). -/
theorem C10_thm :
    (∀ d : Detection, d.label = none →
      labelOf d = "N/A" ∧
      (∀ (colors : List (String × RGB)) (op : DrawOp),
        App.opOf colors d = some op → op.label = "N/A") ∧
      (App.tableRowOf d).label = "N/A" ∧
      (∀ mn mx : ℚ, (AppTry.opTryOf mn mx d).label = "N/A")) ∧
    (∀ d : Detection, d.score = none →
      scoreOf d = 0 ∧
      (∀ (l : List Detection) (pre post : List Detection),
        sortDetections l = pre ++ d :: post → ∀ e ∈ post, scoreOf e ≤ 0) ∧
      (∀ (colors : List (String × RGB)) (op : DrawOp),
        App.opOf colors d = some op →
        op.color = ((0 : ℤ), (0 : ℤ), (0 : ℤ)))) := by
  constructor
  · intro d hd
    have hl : labelOf d = "N/A" := by simp [labelOf, hd]
    refine ⟨hl, ?_, by simp [App.tableRowOf, hl], fun mn mx => by simp [AppTry.opTryOf, hl]⟩
    intro colors op hop
    by_cases hb : (boxOf d).length ≠ 4
    · simp [App.opOf, hb] at hop
    · simp only [App.opOf, if_neg hb] at hop
      rw [← Option.some_inj.mp hop]
      exact hl
  · intro d hd
    have hs : scoreOf d = 0 := by simp [scoreOf, hd]
    refine ⟨hs, ?_, ?_⟩
    · intro l pre post hsp e he
      have hsort := sortDetections_sorted l
      rw [hsp] at hsort
      have h2 := (List.pairwise_append.mp hsort).2.1
      have h3 := (List.pairwise_cons.mp h2).1 e he
      rw [detGE, hs] at h3
      exact h3
    · intro colors op hop
      by_cases hb : (boxOf d).length ≠ 4
      · simp [App.opOf, hb] at hop
      · simp only [App.opOf, if_neg hb, hs] at hop
        rw [← Option.some_inj.mp hop]
        simp [pyInt_zero]

/-- C10 witness: a field-less detection gets label "N/A" and score 0, is
sorted after a score-1 detection, and is drawn in black by the color-map
annotator. -/
theorem C10_witness :
    labelOf ⟨none, none, some [1, 2, 3, 4]⟩ = "N/A" ∧
    (App.tableRowOf ⟨none, none, some [1, 2, 3, 4]⟩).label = "N/A" ∧
    scoreOf ⟨none, none, some [1, 2, 3, 4]⟩ = 0 ∧
    (∀ e ∈ ([] : List Detection), scoreOf e ≤ 0) ∧
    (∀ e ∈ ([(⟨none, none, some [1, 2, 3, 4]⟩ : Detection)]), scoreOf e ≤ 0) ∧
    (∀ (op : DrawOp),
      App.opOf [] ⟨none, none, some [1, 2, 3, 4]⟩ = some op →
      op.color = ((0 : ℤ), (0 : ℤ), (0 : ℤ))) := by
  have h1 := C10_thm.1 ⟨none, none, some [1, 2, 3, 4]⟩ rfl
  have h2 := C10_thm.2 ⟨none, none, some [1, 2, 3, 4]⟩ rfl
  have hsortEx : sortDetections
      [⟨none, none, some [1, 2, 3, 4]⟩, ⟨some "a", some 1, some [1, 2, 3, 4]⟩] =
      [⟨some "a", some 1, some [1, 2, 3, 4]⟩] ++
        (⟨none, none, some [1, 2, 3, 4]⟩ : Detection) :: [] := by decide
  refine ⟨h1.1, h1.2.2.1, h2.1, ?_, ?_, h2.2.2 []⟩
  · exact h2.2.1 _ _ _ hsortEx
  · intro e he
    simp only [List.mem_singleton] at he
    subst he
    simp [scoreOf]

/-- C6: in both detect handlers, a missing image, a missing/empty prompt
text, and a missing credential each independently (the earlier inputs
being present) return the corresponding user-visible message, and the
remote-call trace is empty: no network call is attempted. -/
theorem C6_thm (contents prompt_text api_key : Option String)
    (b64 : String → List ℕ)
    (api : List ℕ → String → String → Except String ApiResponse)
    (apiT : List ℕ → String → String → Except String AppTry.TryResponse) :
    (pyFalsy contents = true →
      App.detect_objects contents prompt_text api_key b64 api =
        (.msg "No image uploaded yet.", []) ∧
      AppTry.detect_objects contents prompt_text api_key b64 apiT =
        (.msg "No image uploaded yet.", [])) ∧
    (pyFalsy contents = false → pyFalsy prompt_text = true →
      App.detect_objects contents prompt_text api_key b64 api =
        (.msg "Please enter at least one prompt.", []) ∧
      AppTry.detect_objects contents prompt_text api_key b64 apiT =
        (.msg "Please enter at least one prompt.", [])) ∧
    (pyFalsy contents = false → pyFalsy prompt_text = false →
      pyFalsy api_key = true →
      App.detect_objects contents prompt_text api_key b64 api =
        (.msg "API key missing. Please ensure you have saved your API key.", []) ∧
      AppTry.detect_objects contents prompt_text api_key b64 apiT =
        (.msg "API key missing. Please ensure you have saved your API key.", [])) := by
  refine ⟨fun h1 => ?_, fun h1 h2 => ?_, fun h1 h2 h3 => ?_⟩
  · constructor <;> simp [App.detect_objects, AppTry.detect_objects, h1]
  · constructor <;> simp [App.detect_objects, AppTry.detect_objects, h1, h2]
  · constructor <;> simp [App.detect_objects, AppTry.detect_objects, h1, h2, h3]

/-- C6 witness: the three missing-input cases at concrete inputs, with a
remote oracle that would fail loudly if it were ever consulted. -/
theorem C6_witness :
    (App.detect_objects none (some "cat") (some "k")
        (fun s => s.data.map Char.toNat) (fun _ _ _ => .error "boom") =
        (.msg "No image uploaded yet.", []) ∧
      AppTry.detect_objects none (some "cat") (some "k")
        (fun s => s.data.map Char.toNat) (fun _ _ _ => .error "boom") =
        (.msg "No image uploaded yet.", [])) ∧
    (App.detect_objects (some "data:,AAAA") none (some "k")
        (fun s => s.data.map Char.toNat) (fun _ _ _ => .error "boom") =
        (.msg "Please enter at least one prompt.", []) ∧
      AppTry.detect_objects (some "data:,AAAA") none (some "k")
        (fun s => s.data.map Char.toNat) (fun _ _ _ => .error "boom") =
        (.msg "Please enter at least one prompt.", [])) ∧
    (App.detect_objects (some "data:,AAAA") (some "cat") none
        (fun s => s.data.map Char.toNat) (fun _ _ _ => .error "boom") =
        (.msg "API key missing. Please ensure you have saved your API key.", []) ∧
      AppTry.detect_objects (some "data:,AAAA") (some "cat") none
        (fun s => s.data.map Char.toNat) (fun _ _ _ => .error "boom") =
        (.msg "API key missing. Please ensure you have saved your API key.", [])) :=
  ⟨(C6_thm none (some "cat") (some "k") _ _ _).1 (by decide),
   (C6_thm (some "data:,AAAA") none (some "k") _ _ _).2.1 (by decide) (by decide),
   (C6_thm (some "data:,AAAA") (some "cat") none _ _ _).2.2 (by decide) (by decide)
     (by decide)⟩

/-- C7: in the multi-prompt loop of src/app.py, the remote API is invoked
for every prompt of the list no matter which calls fail (the call trace is
the whole prompt list, so one prompt's failure never stops the batch); the
combined detections are exactly the concatenation of each prompt's
successful results; and a failed prompt's failure is recorded as a
`Failed detecting` status line. -/
theorem C7_thm (img : List ℕ) (key : String)
    (api : List ℕ → String → String → Except String ApiResponse)
    (prompts : List String) (q e : String) :
    (App.detectLoop img key api prompts).2.2 = prompts ∧
    (App.detectLoop img key api prompts).2.1 =
      (prompts.map (App.promptSuccessDets img key api)).flatten ∧
    (q ∈ prompts → api img q key = .error e →
      App.failMsg q e ∈ (App.detectLoop img key api prompts).1) :=
  ⟨App.detectLoop_calls img key api prompts,
   App.detectLoop_dets img key api prompts,
   fun hq he => App.detectLoop_fail_recorded img key api q e prompts hq he⟩

/-- C7 witness: with an oracle failing exactly on prompt "b", the loop over
["a", "b", "c"] still calls all three prompts and records the failure. -/
theorem C7_witness :
    (App.detectLoop [0] "k"
        (fun _ p _ => if p = "b" then .error "boom" else .ok ⟨some [DetGrp.many []]⟩)
        ["a", "b", "c"]).2.2 = ["a", "b", "c"] ∧
    (App.detectLoop [0] "k"
        (fun _ p _ => if p = "b" then .error "boom" else .ok ⟨some [DetGrp.many []]⟩)
        ["a", "b", "c"]).2.1 =
      ((["a", "b", "c"]).map
        (App.promptSuccessDets [0] "k"
          (fun _ p _ => if p = "b" then .error "boom" else .ok ⟨some [DetGrp.many []]⟩))).flatten ∧
    App.failMsg "b" "boom" ∈
      (App.detectLoop [0] "k"
        (fun _ p _ => if p = "b" then .error "boom" else .ok ⟨some [DetGrp.many []]⟩)
        ["a", "b", "c"]).1 := by
  have h := C7_thm [0] "k"
    (fun _ p _ => if p = "b" then .error "boom" else .ok ⟨some [DetGrp.many []]⟩)
    ["a", "b", "c"] "b" "boom"
  exact ⟨h.1, h.2.1, h.2.2 (by decide) rfl⟩

/-- `min(scores)` of src/app_try.py line 159 (scores of the head and tail
of the batch). -/
def AppTry.minScore (d : Detection) (ds : List Detection) : ℚ :=
  AppTry.listMin (scoreOf d) (ds.map scoreOf)

/-- `max(scores)` of src/app_try.py line 159. -/
def AppTry.maxScore (d : Detection) (ds : List Detection) : ℚ :=
  AppTry.listMax (scoreOf d) (ds.map scoreOf)

/-- `norm_score` of src/app_try.py line 166. -/
def AppTry.normScore (mn mx s : ℚ) : ℚ :=
  if mx > mn then (s - mn) / (mx - mn) else 1

theorem AppTry.listMax_mem : ∀ (xs : List ℚ) (x : ℚ), AppTry.listMax x xs ∈ x :: xs
  | [], x => by simp [AppTry.listMax]
  | y :: ys, x => by
    have ih := AppTry.listMax_mem ys (max x y)
    have : AppTry.listMax x (y :: ys) = AppTry.listMax (max x y) ys := by
      simp [AppTry.listMax]
    rw [this]
    rcases List.mem_cons.mp ih with h | h
    · rw [h]
      rcases max_choice x y with hm | hm
      · rw [hm]; exact List.mem_cons_self _ _
      · rw [hm]; exact List.mem_cons_of_mem _ (List.mem_cons_self _ _)
    · exact List.mem_cons_of_mem _ (List.mem_cons_of_mem _ h)

theorem AppTry.listMin_mem : ∀ (xs : List ℚ) (x : ℚ), AppTry.listMin x xs ∈ x :: xs
  | [], x => by simp [AppTry.listMin]
  | y :: ys, x => by
    have ih := AppTry.listMin_mem ys (min x y)
    have : AppTry.listMin x (y :: ys) = AppTry.listMin (min x y) ys := by
      simp [AppTry.listMin]
    rw [this]
    rcases List.mem_cons.mp ih with h | h
    · rw [h]
      rcases min_choice x y with hm | hm
      · rw [hm]; exact List.mem_cons_self _ _
      · rw [hm]; exact List.mem_cons_of_mem _ (List.mem_cons_self _ _)
    · exact List.mem_cons_of_mem _ (List.mem_cons_of_mem _ h)

theorem pyInt_255 : pyInt (255 * (1 : ℚ)) = 255 := by
  rw [mul_one, pyInt_nonneg _ (by norm_num)]
  norm_num

theorem pyInt_255n : pyInt (255 : ℚ) = 255 := by
  rw [pyInt_nonneg _ (by norm_num)]
  norm_num

/-- C5: in the no-color-map (single-prompt) annotator of src/app_try.py,
for a non-empty batch of well-formed boxes no exception (in particular no
division by zero) occurs and each drawn color is
`(int(255*(1-norm)), int(255*norm), 0)` with
`norm = (score-min)/(max-min)` when `max > min` and `norm = 1` otherwise;
hence a maximum-score detection is drawn in (0,255,0), a minimum-score
detection in (255,0,0) when the scores differ, and when `max = min` (all
scores equal) every detection is drawn in (0,255,0). The batch minimum
and maximum are attained among the batch's scores. -/
theorem C5_thm (b : List ℕ) (d : Detection) (ds : List Detection)
    (hbox : ∀ x ∈ d :: ds, (boxOf x).length = 4) :
    AppTry.draw_bounding_boxes b (d :: ds) =
      .ok { sourceBytes := b, convertedRGB := false,
            ops := (sortDetections (d :: ds)).map
              (AppTry.opTryOf (AppTry.minScore d ds) (AppTry.maxScore d ds)) } ∧
    AppTry.maxScore d ds ∈ scoreOf d :: ds.map scoreOf ∧
    AppTry.minScore d ds ∈ scoreOf d :: ds.map scoreOf ∧
    (∀ det : Detection,
      (AppTry.opTryOf (AppTry.minScore d ds) (AppTry.maxScore d ds) det).color =
        (pyInt (255 * (1 - AppTry.normScore (AppTry.minScore d ds)
            (AppTry.maxScore d ds) (scoreOf det))),
         pyInt (255 * AppTry.normScore (AppTry.minScore d ds)
            (AppTry.maxScore d ds) (scoreOf det)), 0)) ∧
    (∀ det : Detection, scoreOf det = AppTry.maxScore d ds →
      (AppTry.opTryOf (AppTry.minScore d ds) (AppTry.maxScore d ds) det).color =
        ((0 : ℤ), (255 : ℤ), (0 : ℤ))) ∧
    (AppTry.minScore d ds < AppTry.maxScore d ds →
      ∀ det : Detection, scoreOf det = AppTry.minScore d ds →
      (AppTry.opTryOf (AppTry.minScore d ds) (AppTry.maxScore d ds) det).color =
        ((255 : ℤ), (0 : ℤ), (0 : ℤ))) ∧
    (AppTry.maxScore d ds = AppTry.minScore d ds →
      ∀ det : Detection,
      (AppTry.opTryOf (AppTry.minScore d ds) (AppTry.maxScore d ds) det).color =
        ((0 : ℤ), (255 : ℤ), (0 : ℤ))) := by
  set mn := AppTry.minScore d ds with hmn
  set mx := AppTry.maxScore d ds with hmx
  have hformula : ∀ det : Detection,
      (AppTry.opTryOf mn mx det).color =
        (pyInt (255 * (1 - AppTry.normScore mn mx (scoreOf det))),
         pyInt (255 * AppTry.normScore mn mx (scoreOf det)), 0) := by
    intro det
    simp [AppTry.opTryOf, AppTry.normScore]
  have hnorm_one : ∀ s : ℚ, s = mx → AppTry.normScore mn mx s = 1 := by
    intro s hs
    subst hs
    by_cases hlt : mx > mn
    · rw [AppTry.normScore, if_pos hlt, div_self (sub_ne_zero.mpr (ne_of_gt hlt))]
    · rw [AppTry.normScore, if_neg hlt]
  have hgreen : ∀ det : Detection, AppTry.normScore mn mx (scoreOf det) = 1 →
      (AppTry.opTryOf mn mx det).color = ((0 : ℤ), (255 : ℤ), (0 : ℤ)) := by
    intro det hn
    rw [hformula det, hn]
    norm_num [pyInt_zero, pyInt_255, pyInt_255n]
  refine ⟨AppTry.draw_ok b d ds hbox, AppTry.listMax_mem _ _, AppTry.listMin_mem _ _,
    hformula, ?_, ?_, ?_⟩
  · intro det hdet
    exact hgreen det (hnorm_one _ hdet)
  · intro hlt det hdet
    have hn0 : AppTry.normScore mn mx (scoreOf det) = 0 := by
      rw [AppTry.normScore, if_pos hlt, hdet, sub_self, zero_div]
    rw [hformula det, hn0]
    norm_num [pyInt_zero, pyInt_255, pyInt_255n]
  · intro heq det
    have hn1 : AppTry.normScore mn mx (scoreOf det) = 1 := by
      rw [AppTry.normScore, if_neg (by rw [heq]; exact lt_irrefl mn)]
    exact hgreen det hn1

/-- C5 witness: the spec's concrete two-detection batch with scores 0.2 and
0.8: annotation succeeds, the 0.8 detection is drawn in (0,255,0) and the
0.2 detection in (255,0,0). -/
theorem C5_witness :
    AppTry.draw_bounding_boxes [0]
      (⟨some "a", some (2/10), some [1, 2, 3, 4]⟩ ::
        [⟨some "b", some (8/10), some [1, 2, 3, 4]⟩]) =
      .ok { sourceBytes := [0], convertedRGB := false,
            ops := (sortDetections
              (⟨some "a", some (2/10), some [1, 2, 3, 4]⟩ ::
                [⟨some "b", some (8/10), some [1, 2, 3, 4]⟩])).map
              (AppTry.opTryOf
                (AppTry.minScore ⟨some "a", some (2/10), some [1, 2, 3, 4]⟩
                  [⟨some "b", some (8/10), some [1, 2, 3, 4]⟩])
                (AppTry.maxScore ⟨some "a", some (2/10), some [1, 2, 3, 4]⟩
                  [⟨some "b", some (8/10), some [1, 2, 3, 4]⟩])) } ∧
    (AppTry.opTryOf
        (AppTry.minScore ⟨some "a", some (2/10), some [1, 2, 3, 4]⟩
          [⟨some "b", some (8/10), some [1, 2, 3, 4]⟩])
        (AppTry.maxScore ⟨some "a", some (2/10), some [1, 2, 3, 4]⟩
          [⟨some "b", some (8/10), some [1, 2, 3, 4]⟩])
        ⟨some "b", some (8/10), some [1, 2, 3, 4]⟩).color =
      ((0 : ℤ), (255 : ℤ), (0 : ℤ)) ∧
    (AppTry.opTryOf
        (AppTry.minScore ⟨some "a", some (2/10), some [1, 2, 3, 4]⟩
          [⟨some "b", some (8/10), some [1, 2, 3, 4]⟩])
        (AppTry.maxScore ⟨some "a", some (2/10), some [1, 2, 3, 4]⟩
          [⟨some "b", some (8/10), some [1, 2, 3, 4]⟩])
        ⟨some "a", some (2/10), some [1, 2, 3, 4]⟩).color =
      ((255 : ℤ), (0 : ℤ), (0 : ℤ)) := by
  have h := C5_thm [0] ⟨some "a", some (2/10), some [1, 2, 3, 4]⟩
    [⟨some "b", some (8/10), some [1, 2, 3, 4]⟩] (by decide)
  have hmaxEq : AppTry.maxScore ⟨some "a", some (2/10), some [1, 2, 3, 4]⟩
      [⟨some "b", some (8/10), some [1, 2, 3, 4]⟩] = (8/10 : ℚ) := by
    simp only [AppTry.maxScore, AppTry.listMax, scoreOf, List.map_cons, List.map_nil,
      Option.getD_some, List.foldl_cons, List.foldl_nil]
    exact max_eq_right (by norm_num)
  have hminEq : AppTry.minScore ⟨some "a", some (2/10), some [1, 2, 3, 4]⟩
      [⟨some "b", some (8/10), some [1, 2, 3, 4]⟩] = (2/10 : ℚ) := by
    simp only [AppTry.minScore, AppTry.listMin, scoreOf, List.map_cons, List.map_nil,
      Option.getD_some, List.foldl_cons, List.foldl_nil]
    exact min_eq_left (by norm_num)
  refine ⟨h.1, ?_, ?_⟩
  · exact h.2.2.2.2.1 _ (by rw [hmaxEq]; simp [scoreOf])
  · exact h.2.2.2.2.2.1 (by rw [hmaxEq, hminEq]; norm_num) _
      (by rw [hminEq]; simp [scoreOf])

theorem App.opOf_score (colors : List (String × RGB)) (d : Detection) (op : DrawOp)
    (h : App.opOf colors d = some op) : op.score = scoreOf d := by
  by_cases hb : (boxOf d).length ≠ 4
  · simp [App.opOf, hb] at h
  · simp only [App.opOf, if_neg hb] at h
    rw [← Option.some_inj.mp h]

theorem AppTry.drawTryLoop_ok_inv (mn mx : ℚ) :
    ∀ (l : List Detection) (ops : List DrawOp),
      AppTry.drawTryLoop mn mx l = .ok ops → ops = l.map (AppTry.opTryOf mn mx)
  | [], ops, h => by
    simp only [AppTry.drawTryLoop] at h
    injection h with h2
    rw [← h2, List.map_nil]
  | d :: ds, ops, h => by
    simp only [AppTry.drawTryLoop] at h
    by_cases hb : (boxOf d).length = 4
    · rw [if_pos hb] at h
      cases hrec : AppTry.drawTryLoop mn mx ds with
      | error e => rw [hrec] at h; cases h
      | ok ops2 =>
        rw [hrec] at h
        injection h with h2
        rw [← h2, List.map_cons, AppTry.drawTryLoop_ok_inv mn mx ds ops2 hrec]
    · rw [if_neg hb] at h; cases h

theorem AppTry.draw_ops_shape (b : List ℕ) (dets : List Detection) (ann : Annotated)
    (h : AppTry.draw_bounding_boxes b dets = .ok ann) :
    ∃ mn mx : ℚ, ann.ops = (sortDetections dets).map (AppTry.opTryOf mn mx) := by
  cases dets with
  | nil => simp [AppTry.draw_bounding_boxes] at h
  | cons d ds =>
    simp only [AppTry.draw_bounding_boxes] at h
    cases hrec : AppTry.drawTryLoop (AppTry.listMin (scoreOf d) (ds.map scoreOf))
        (AppTry.listMax (scoreOf d) (ds.map scoreOf)) (sortDetections (d :: ds)) with
    | error e => rw [hrec] at h; cases h
    | ok ops =>
      rw [hrec] at h
      injection h with h2
      refine ⟨AppTry.listMin (scoreOf d) (ds.map scoreOf),
        AppTry.listMax (scoreOf d) (ds.map scoreOf), ?_⟩
      rw [← h2]
      exact AppTry.drawTryLoop_ok_inv _ _ _ _ hrec

/-- Evaluation of the app.py annotator on the spec's concrete three-score
batch: the draw order of the scores is [0.9, 0.5, 0.3]. -/
theorem drawScores_eval :
    ((App.draw_bounding_boxes [0]
        (sortDetections
          [⟨some "a", some (3/10), some [1, 2, 3, 4]⟩,
           ⟨some "b", some (9/10), some [1, 2, 3, 4]⟩,
           ⟨some "c", some (5/10), some [1, 2, 3, 4]⟩])
        []).ops.map DrawOp.score) = [9/10, 5/10, 3/10] := by
  have hsort : sortDetections
      [⟨some "a", some (3/10), some [1, 2, 3, 4]⟩,
       ⟨some "b", some (9/10), some [1, 2, 3, 4]⟩,
       ⟨some "c", some (5/10), some [1, 2, 3, 4]⟩] =
      [⟨some "b", some (9/10), some [1, 2, 3, 4]⟩,
       ⟨some "c", some (5/10), some [1, 2, 3, 4]⟩,
       ⟨some "a", some (3/10), some [1, 2, 3, 4]⟩] := by
    norm_num [sortDetections, List.insertionSort, List.orderedInsert, detGE, scoreOf]
  rw [hsort]
  norm_num [App.draw_bounding_boxes, App.drawLoop, App.opOf, boxOf, labelOf, scoreOf]

/-- C2 counterexample: with scores [0.3, 0.9, 0.5], the multi-prompt
pipeline draws in order [0.9, 0.5, 0.3]: the box drawn LAST has score 0.3,
strictly below the highest confidence 0.9 (which is drawn first). This
refutes "the highest-confidence box is drawn last (on top)". -/
theorem C2_counterexample :
    ((App.draw_bounding_boxes [0]
        (sortDetections
          [⟨some "a", some (3/10), some [1, 2, 3, 4]⟩,
           ⟨some "b", some (9/10), some [1, 2, 3, 4]⟩,
           ⟨some "c", some (5/10), some [1, 2, 3, 4]⟩])
        []).ops.map DrawOp.score) = [9/10, 5/10, 3/10] ∧
    ((App.draw_bounding_boxes [0]
        (sortDetections
          [⟨some "a", some (3/10), some [1, 2, 3, 4]⟩,
           ⟨some "b", some (9/10), some [1, 2, 3, 4]⟩,
           ⟨some "c", some (5/10), some [1, 2, 3, 4]⟩])
        []).ops.map DrawOp.score).getLast? = some (3/10) ∧
    (3/10 : ℚ) < 9/10 := by
  refine ⟨drawScores_eval, ?_, by norm_num⟩
  rw [drawScores_eval]
  rfl

/-- C2 (amended): in both variants detections are rendered in descending
score order, so the HIGHEST-confidence box is drawn first and the
lowest-confidence box is drawn last (on top of the others); given scores
[0.3, 0.9, 0.5] the rendered order is [0.9, 0.5, 0.3]. -/
theorem C2_thm :
    (∀ (b : List ℕ) (dets : List Detection) (colors : List (String × RGB)),
      ((App.draw_bounding_boxes b (sortDetections dets) colors).ops.map
        DrawOp.score).Pairwise (fun a b => b ≤ a)) ∧
    (∀ (b : List ℕ) (dets : List Detection) (ann : Annotated),
      AppTry.draw_bounding_boxes b dets = .ok ann →
      (ann.ops.map DrawOp.score).Pairwise (fun a b => b ≤ a)) ∧
    ((App.draw_bounding_boxes [0]
        (sortDetections
          [⟨some "a", some (3/10), some [1, 2, 3, 4]⟩,
           ⟨some "b", some (9/10), some [1, 2, 3, 4]⟩,
           ⟨some "c", some (5/10), some [1, 2, 3, 4]⟩])
        []).ops.map DrawOp.score) = [9/10, 5/10, 3/10] := by
  refine ⟨?_, ?_, drawScores_eval⟩
  · intro b dets colors
    rw [List.pairwise_map]
    have hops : (App.draw_bounding_boxes b (sortDetections dets) colors).ops =
        (sortDetections dets).filterMap (App.opOf colors) :=
      App.drawLoop_eq_filterMap colors (sortDetections dets)
    rw [hops]
    refine List.Pairwise.filterMap (App.opOf colors) ?_ (sortDetections_sorted dets)
    intro a a' hr op hop op' hop'
    rw [Option.mem_def] at hop hop'
    rw [App.opOf_score colors a op hop, App.opOf_score colors a' op' hop']
    exact hr
  · intro b dets ann h
    obtain ⟨mn, mx, hops⟩ := AppTry.draw_ops_shape b dets ann h
    rw [hops, List.map_map, List.pairwise_map]
    exact sortDetections_sorted dets

/-- C2 witness: the single-prompt variant's conjunct applied to a concrete
successfully-annotated two-detection batch. -/
theorem C2_witness :
    ((Annotated.mk [0] false
        ((sortDetections
            (⟨some "a", some 0, some [1, 2, 3, 4]⟩ ::
              [⟨some "b", some 1, some [1, 2, 3, 4]⟩])).map
          (AppTry.opTryOf
            (AppTry.listMin (scoreOf ⟨some "a", some 0, some [1, 2, 3, 4]⟩)
              ([⟨some "b", some 1, some [1, 2, 3, 4]⟩].map scoreOf))
            (AppTry.listMax (scoreOf ⟨some "a", some 0, some [1, 2, 3, 4]⟩)
              ([⟨some "b", some 1, some [1, 2, 3, 4]⟩].map scoreOf))))).ops.map
      DrawOp.score).Pairwise (fun a b => b ≤ a) :=
  C2_thm.2.1 [0]
    (⟨some "a", some 0, some [1, 2, 3, 4]⟩ :: [⟨some "b", some 1, some [1, 2, 3, 4]⟩])
    _ (AppTry.draw_ok [0] ⟨some "a", some 0, some [1, 2, 3, 4]⟩
        [⟨some "b", some 1, some [1, 2, 3, 4]⟩] (by decide))

/-- C8: for a non-empty result bundle, each packager builds in memory a ZIP
archive offered as `results.zip` with exactly the two named entries —
`annotated_image.jpg` plus `results.csv` (src/app.py) or
`detection_results.txt` (legacy src/app_try.py) — and unpacking gives back
exactly the image bytes encoded in the stored data URL and, for the csv
variant, parsing the csv entry returns exactly the header row followed by
the table rows that were packaged (the text variant stores the summary
text verbatim). -/
theorem C8_thm :
    (∀ (b64 : List Char → List ℕ) (ann : String)
        (tbl : List (String × String × String)) (enc : List Char),
      strStartsWith ann "data:image" = true →
      (pySplit ',' ann).get? 1 = some enc →
      App.download_results (some ⟨ann, tbl⟩) b64 =
        .file "results.zip"
          [("annotated_image.jpg", .bytes (b64 enc)),
           ("results.csv", .text (App.csvBytes tbl))] ∧
      zipRead [("annotated_image.jpg", .bytes (b64 enc)),
          ("results.csv", .text (App.csvBytes tbl))] "annotated_image.jpg" =
        some (.bytes (b64 enc)) ∧
      zipRead [("annotated_image.jpg", .bytes (b64 enc)),
          ("results.csv", .text (App.csvBytes tbl))] "results.csv" =
        some (.text (App.csvBytes tbl)) ∧
      Csv.parseDoc (App.csvBytes tbl) =
        some (App.headerFields :: tbl.map App.rowFields)) ∧
    (∀ (b64 : List Char → List ℕ) (ann txt : String) (enc : List Char),
      strStartsWith ann "data:image" = true →
      (pySplit ',' ann).get? 1 = some enc →
      AppTry.download_results (some ⟨some ann, txt⟩) b64 =
        .file "results.zip"
          [("annotated_image.jpg", .bytes (b64 enc)),
           ("detection_results.txt", .text txt.data)] ∧
      zipRead [("annotated_image.jpg", .bytes (b64 enc)),
          ("detection_results.txt", .text txt.data)] "detection_results.txt" =
        some (.text txt.data)) := by
  constructor
  · intro b64 ann tbl enc h1 h2
    rw [List.get?_eq_getElem?] at h2
    refine ⟨by simp [App.download_results, h1, h2], by simp [zipRead],
      by simp [zipRead], ?_⟩
    refine Csv.parseDoc_encDoc _ ?_
    intro r hr
    rcases List.mem_cons.mp hr with rfl | hr2
    · simp [App.headerFields]
    · obtain ⟨x, _, rfl⟩ := List.mem_map.mp hr2
      simp [App.rowFields]
  · intro b64 ann txt enc h1 h2
    rw [List.get?_eq_getElem?] at h2
    exact ⟨by simp [AppTry.download_results, h1, h2], by simp [zipRead]⟩

/-- C8 witness: a concrete bundle — image bytes `ABC` behind a data URL and
one table row whose Bounding Box field contains commas (exercising csv
quoting) — packages into the two named entries and unpacks to the same
image bytes and the same row. -/
theorem C8_witness :
    (App.download_results
        (some ⟨"data:image/jpeg;base64,QUJD", [("cat", "0.90", "[10, 10, 50, 50]")]⟩)
        (fun l => l.map Char.toNat) =
      .file "results.zip"
        [("annotated_image.jpg", .bytes ((fun l => l.map Char.toNat) "QUJD".data)),
         ("results.csv", .text (App.csvBytes [("cat", "0.90", "[10, 10, 50, 50]")]))] ∧
      zipRead [("annotated_image.jpg", .bytes ((fun l => l.map Char.toNat) "QUJD".data)),
          ("results.csv", .text (App.csvBytes [("cat", "0.90", "[10, 10, 50, 50]")]))]
        "annotated_image.jpg" =
        some (.bytes ((fun l => l.map Char.toNat) "QUJD".data)) ∧
      zipRead [("annotated_image.jpg", .bytes ((fun l => l.map Char.toNat) "QUJD".data)),
          ("results.csv", .text (App.csvBytes [("cat", "0.90", "[10, 10, 50, 50]")]))]
        "results.csv" =
        some (.text (App.csvBytes [("cat", "0.90", "[10, 10, 50, 50]")])) ∧
      Csv.parseDoc (App.csvBytes [("cat", "0.90", "[10, 10, 50, 50]")]) =
        some (App.headerFields ::
          [("cat", "0.90", "[10, 10, 50, 50]")].map App.rowFields)) ∧
    (AppTry.download_results
        (some ⟨some "data:image/jpeg;base64,QUJD", "Objects Detected:"⟩)
        (fun l => l.map Char.toNat) =
      .file "results.zip"
        [("annotated_image.jpg", .bytes ((fun l => l.map Char.toNat) "QUJD".data)),
         ("detection_results.txt", .text ("Objects Detected:" : String).data)] ∧
      zipRead [("annotated_image.jpg", .bytes ((fun l => l.map Char.toNat) "QUJD".data)),
          ("detection_results.txt", .text ("Objects Detected:" : String).data)]
        "detection_results.txt" =
        some (.text ("Objects Detected:" : String).data)) :=
  ⟨C8_thm.1 (fun l => l.map Char.toNat) "data:image/jpeg;base64,QUJD"
      [("cat", "0.90", "[10, 10, 50, 50]")] "QUJD".data (by decide) (by decide),
   C8_thm.2 (fun l => l.map Char.toNat) "data:image/jpeg;base64,QUJD"
      "Objects Detected:" "QUJD".data (by decide) (by decide)⟩
